import Mathlib

/-!
Verification of the libp2p-experiments p2p node against its specification.

The embedding follows the two source files `src/bin/p2p/src/main.rs` and
`src/bin/p2p/src/config.rs`.  The node itself is a thin wrapper around the
libp2p library: the Kademlia routing table, the dedup cache and the
dissemination engine described by the specification live in out-of-scope
collaborators, so those parts are modelled from the specification text and
are marked `Modelled from the spec:` in their doc comments.  Everything
else is translated directly from the Rust source.
-/

namespace P2P

/-! ## Multiaddresses

A multiaddress is a sequence of protocol components.  The only component the
node ever inspects is `P2p` (main.rs lines 137-143); every other component
(`ip4`, `tcp`, `dnsaddr`, ...) is opaque to it and carried as a tag. -/

/-- One protocol component of a multiaddress.  `p2p` carries a peer identity;
all other components are opaque to the node and represented by a numeric tag
plus argument. -/
inductive Proto where
  | p2p (peerId : Nat)
  | other (tag : Nat) (arg : Nat)
  deriving DecidableEq, Repr

/-- A multiaddress: a list of protocol components. -/
structure Multiaddr where
  protocols : List Proto
  deriving DecidableEq, Repr

/-- `peer.iter().find_map(|proto| if let Protocol::P2p(id) = proto ...)`
(main.rs lines 137-143): the first `p2p` component's peer id, if any. -/
def Multiaddr.firstP2p (m : Multiaddr) : Option Nat :=
  m.protocols.findSome? fun p =>
    match p with
    | .p2p id => some id
    | .other _ _ => none

/-! ## Configuration (`config.rs`) -/

/-- `Config` (config.rs lines 9-17). -/
structure Config where
  bootstrap_peers : List Multiaddr
  topic : String
  deriving DecidableEq, Repr

/-- `default_bootstrap_peers()` (config.rs lines 83-104): six multiaddresses,
each ending in a `/p2p/<hash>` component.  The opaque prefixes
(`/dnsaddr/bootstrap.libp2p.io`, `/ip4/104.131.131.82/tcp/4001`, ...) are
abstracted to tagged components; the six peer hashes become the identities
0-4 (the last two addresses share one hash). -/
def default_bootstrap_peers : List Multiaddr :=
  [ ⟨[.other 0 0, .p2p 0]⟩,
    ⟨[.other 0 0, .p2p 1]⟩,
    ⟨[.other 0 0, .p2p 2]⟩,
    ⟨[.other 0 0, .p2p 3]⟩,
    ⟨[.other 1 104, .other 2 4001, .p2p 4]⟩,
    ⟨[.other 1 104, .other 3 4001, .other 4 0, .p2p 4]⟩ ]

/-- `default_topic()` (config.rs lines 107-109). -/
def default_topic : String := "example-topic"

/-- `impl Default for Config` (config.rs lines 19-26). -/
def Config.default : Config :=
  { bootstrap_peers := default_bootstrap_peers, topic := default_topic }

/-- `ConfigYaml` (config.rs lines 46-53): the partial configuration read from
YAML, both fields optional. -/
structure ConfigYaml where
  bootstrap_peers : Option (List String)
  topic : Option String
  deriving DecidableEq, Repr

/-- `impl From<ConfigYaml> for Config` (config.rs lines 55-80).  The
multiaddress parser `str::parse::<Multiaddr>` is a library collaborator and
is passed in as `parse`; entries it rejects are dropped with a warning
(`filter_map(...ok())`), never turned into errors. -/
def Config.fromYaml (parse : String → Option Multiaddr) (yaml : ConfigYaml) :
    Config :=
  { bootstrap_peers :=
      match yaml.bootstrap_peers with
      | some peers => peers.filterMap parse
      | none => default_bootstrap_peers,
    topic := yaml.topic.getD default_topic }

/-- The state the filesystem can present to `Config::from_file`: the path is
absent, or present with UTF-8 contents, or present but unreadable. -/
inductive FileState where
  | absent
  | present (content : String)
  | unreadable
  deriving DecidableEq, Repr

/-- `Config::from_file` (config.rs lines 30-42).  `parseYaml` stands for
`serde_yaml::from_str::<ConfigYaml>` and `parse` for the multiaddress
parser, both library collaborators.  A missing file yields the default
configuration; a YAML document whose `bootstrap_peers` entries fail
multiaddress parsing still yields `Ok`. -/
def Config.from_file (parseYaml : String → Option ConfigYaml)
    (parse : String → Option Multiaddr) (fs : FileState) :
    Except String Config :=
  match fs with
  | .absent => .ok Config.default
  | .unreadable => .error "Failed to read config file"
  | .present content =>
      match parseYaml content with
      | none => .error "Failed to parse YAML config"
      | some yaml => .ok (Config.fromYaml parse yaml)

/-! ## Identity persistence (`main.rs` lines 37-55)

Bytes are modelled as natural numbers below 256 in lists.  The hex codec
(`hex::encode` / `hex::decode`) and the libp2p identity functions are
library collaborators; their observable behaviour is modelled here. -/

/-- An ed25519 keypair: 32 secret-key bytes and 32 public-key bytes. -/
structure Ed25519Keypair where
  secret : List Nat
  public : List Nat
  deriving DecidableEq, Repr

/-- Modelled from the spec: the identity collaborator (out of core scope,
spec §1/§6) is libp2p-identity, absent from `src/`.
`Keypair::to_protobuf_encoding` wraps the 64 raw keypair bytes
(secret followed by public) in the protobuf envelope
`[0x08, 0x01, 0x12, 0x40]` (field 1: key type Ed25519; field 2:
length-64 data). -/
def to_protobuf_encoding (kp : Ed25519Keypair) : List Nat :=
  [8, 1, 18, 64] ++ kp.secret ++ kp.public

/-- Modelled from the spec: libp2p-identity's
`Keypair::ed25519_from_bytes` accepts exactly the 32 raw secret-key bytes
(anything else is a `DecodingError`) and rederives the public key from
them (`derive` stands for the scalar-multiplication that computes the
public key). -/
def ed25519_from_bytes (derive : List Nat → List Nat) (b : List Nat) :
    Option Ed25519Keypair :=
  if b.length = 32 then some ⟨b, derive b⟩ else none

/-- `hex::encode`: each byte becomes its two hex digits (modelled as the two
base-16 digits, high first). -/
def hexEncode (bs : List Nat) : List Nat :=
  (bs.map fun b => [b / 16, b % 16]).flatten

/-- `hex::decode`: pairs of hex digits back into bytes; fails on an odd
number of digits or an out-of-range digit. -/
def hexDecode : List Nat → Option (List Nat)
  | [] => some []
  | [_] => none
  | h :: l :: rest =>
      if h < 16 ∧ l < 16 then (hexDecode rest).map fun t => (h * 16 + l) :: t
      else none

/-- `load_or_create_identity` (main.rs lines 37-55), with the filesystem
explicit: `file` is the identity file's contents (hex digits), or `none`
when the path does not exist; `fresh` is the keypair
`Keypair::generate_ed25519()` would produce on this call.  Returns the
call's result together with the identity file's contents afterwards.  When
the file is absent the fresh keypair is hex-protobuf-encoded and written;
when it is present its contents are hex-decoded and handed to
`ed25519_from_bytes`. -/
def load_or_create_identity (derive : List Nat → List Nat)
    (fresh : Ed25519Keypair) (file : Option (List Nat)) :
    Except String Ed25519Keypair × Option (List Nat) :=
  match file with
  | some digits =>
      match hexDecode digits with
      | none => (.error "Failed to decode identity from hex", file)
      | some decoded =>
          match ed25519_from_bytes derive decoded with
          | none => (.error "Failed to parse identity keypair from bytes", file)
          | some kp => (.ok kp, file)
  | none =>
      let hex_encoded := hexEncode (to_protobuf_encoding fresh)
      (.ok fresh, some hex_encoded)

/-! ## Listening ports (`main.rs` lines 117-127)

The CLI supplies a 16-bit port `p` (main.rs lines 31-33); the node listens
for TCP on `p` and derives the QUIC listening port as `p + 1`
(`format!("/ip4/0.0.0.0/udp/{}/quic-v1", cli.port + 1)`). -/

/-- The TCP listening port: the CLI port itself (main.rs line 118). -/
def tcpListenPort (p : Nat) : Nat := p

/-- The QUIC listening port derived from the CLI port: `cli.port + 1`
(main.rs line 124), computed here over `Nat` so that the overflow condition
of the 16-bit `u16` arithmetic can be stated explicitly. -/
def quicListenPort (p : Nat) : Nat := p + 1

/-! ## Bootstrap-peer loop and DHT bootstrap (`main.rs` lines 129-153) -/

/-- The addresses the bootstrap loop adds to the DHT (main.rs lines
137-145): for each configured peer, if its multiaddress carries a `p2p`
component, the pair (peer id, address) is passed to
`Behaviour::add_address`; addresses without a `p2p` component are never
added. -/
def addedAddresses (peers : List Multiaddr) : List (Nat × Multiaddr) :=
  peers.filterMap fun p => (p.firstP2p).map fun id => (id, p)

/-- The bootstrap-peer loop of `main` (main.rs lines 130-146): every
configured peer is dialed (`dial` is the transport collaborator; both
outcomes are only logged, lines 132-133) and, when its address carries a
`p2p` component, added to the DHT.  Returns the per-peer dial outcomes and
the routing-table seed records accumulated in order. -/
def bootstrapPeerLoop (dial : Multiaddr → Except String Unit)
    (peers : List Multiaddr) :
    List (Multiaddr × Except String Unit) × List (Nat × Multiaddr) :=
  peers.foldl
    (fun acc p =>
      let outcome := dial p
      let table :=
        match p.firstP2p with
        | some id => acc.2 ++ [(id, p)]
        | none => acc.2
      (acc.1 ++ [(p, outcome)], table))
    ([], [])

/-- Modelled from the spec: `kad::Behaviour::bootstrap` (libp2p library,
absent from `src/`) issues a single lookup for the local identity itself
(self-lookup, spec §4.2) and fails with a `NoKnownPeers` error when the
routing table holds no peers (the discovery-exhausted condition, spec §7).
Returns the lookup target on success. -/
def kadBootstrap (localId : Nat) (table : List (Nat × Multiaddr)) :
    Except String Nat :=
  if table.isEmpty then .error "NoKnownPeers" else .ok localId

/-- The DHT startup sequence of `main` (main.rs lines 129-153): run the
bootstrap-peer loop, then `swarm.behaviour_mut().bootstrap()?` — the `?`
on line 149 propagates a bootstrap error out of `main`, so an `Except.error`
here is a process exit.  On success, returns the dial outcomes, the seeded
table and the self-lookup target. -/
def dhtStartup (dial : Multiaddr → Except String Unit) (localId : Nat)
    (peers : List Multiaddr) :
    Except String
      (List (Multiaddr × Except String Unit) × List (Nat × Multiaddr) × Nat) :=
  let r := bootstrapPeerLoop dial peers
  match kadBootstrap localId r.2 with
  | .error e => .error e
  | .ok target => .ok (r.1, r.2, target)

/-- `main` from the bootstrap loop onwards (main.rs lines 129-189): if the
DHT startup fails, the error propagates out of `main` and the process
exits; otherwise the node enters the event loop (line 153). -/
def mainStartup (dial : Multiaddr → Except String Unit) (localId : Nat)
    (peers : List Multiaddr) : Except String String :=
  match dhtStartup dial localId peers with
  | .error e => .error e
  | .ok _ => .ok "event loop running"

/-- Modelled from the spec: the per-peer connection state machine of the
Connection Manager (spec §4.4), absent from `src/` (it lives inside the
libp2p Swarm): `Idle → Dialing → Connected → Closed`, with
`Dialing → Idle` on failure and `Connected → Closed` on stream error or
close. -/
inductive PeerConnState where
  | idle
  | dialing
  | connected
  | closed
  deriving DecidableEq, Repr

/-- Connection-lifecycle events driving `connStep`. -/
inductive ConnEvent where
  | dialStart
  | dialSuccess
  | dialFailure
  | streamClose
  deriving DecidableEq, Repr

/-- Modelled from the spec: the transition function of the §4.4 state
machine.  Events that do not apply in a state leave it unchanged. -/
def connStep : PeerConnState → ConnEvent → PeerConnState
  | .idle, .dialStart => .dialing
  | .dialing, .dialSuccess => .connected
  | .dialing, .dialFailure => .idle
  | .connected, .streamClose => .closed
  | s, _ => s

/-! ## Routing Table

The Kademlia routing table lives inside the libp2p `kad::Behaviour`
(main.rs lines 96-100), not in `src/`; it is modelled from spec §3/§4.1. -/

/-- The fanout constant K (spec §3: "a fixed fanout constant, e.g. 20"). -/
def K : Nat := 20

/-- One bucket per XOR-distance prefix length of a 256-bit identity. -/
def NUM_BUCKETS : Nat := 256

/-- Modelled from the spec: a PeerRecord (spec §3): identity, one or more
network addresses, last-seen timestamp. -/
structure PeerRecord where
  id : Nat
  addrs : List Multiaddr
  lastSeen : Nat
  deriving DecidableEq, Repr

/-- XOR distance between two identities (spec glossary): bitwise
exclusive-or interpreted as an integer. -/
def xorDistance (a b : Nat) : Nat := Nat.xor a b

/-- Modelled from the spec: the bucket a peer belongs to — buckets group
peers "sharing a common XOR-distance prefix length from the local
identity" (spec §3), i.e. the position of the highest set bit of the XOR
distance. -/
def bucketIndex (localId pid : Nat) : Nat := Nat.log2 (xorDistance localId pid)

/-- Modelled from the spec: the Routing Table (spec §3/§9): an arena of
fixed-capacity bucket slots indexed by XOR-distance prefix length.  Each
bucket is kept least-recently-seen first. -/
structure RoutingTable where
  localId : Nat
  buckets : List (List PeerRecord)
  deriving DecidableEq, Repr

/-- The empty routing table of a node. -/
def RoutingTable.empty (localId : Nat) : RoutingTable :=
  ⟨localId, List.replicate NUM_BUCKETS []⟩

/-- Address-set merge on refresh (spec §3: "updated on every successful
interaction (timestamp refresh, address set merge)"). -/
def mergeAddrs (old new : List Multiaddr) : List Multiaddr :=
  old ++ new.filter fun a => !(old.contains a)

/-- Modelled from the spec: `record_seen(peer)` (spec §4.1, eviction policy
spec §3): refresh an existing record in place (timestamp refresh, address
merge, moved to the most-recently-seen end); insert into the peer's bucket
when it has room; when the bucket is full, ping the least-recently-seen
entry and keep it if it answers (dropping the candidate), else evict it
and append the candidate.  `ping` is the transport-collaborator ping
check; the local identity itself is never stored (it has no XOR-distance
prefix).  Buckets are ordered least-recently-seen first. -/
def record_seen (ping : Nat → Bool) (t : RoutingTable) (r : PeerRecord) :
    RoutingTable :=
  if r.id = t.localId then t
  else
    match (t.buckets.getD (bucketIndex t.localId r.id) []).find?
        (fun x => x.id == r.id) with
    | some old =>
        { t with
          buckets :=
            t.buckets.set (bucketIndex t.localId r.id)
              (((t.buckets.getD (bucketIndex t.localId r.id) []).filter
                  fun x => x.id != r.id) ++
                [⟨old.id, mergeAddrs old.addrs r.addrs, r.lastSeen⟩]) }
    | none =>
        if (t.buckets.getD (bucketIndex t.localId r.id) []).length < K then
          { t with
            buckets :=
              t.buckets.set (bucketIndex t.localId r.id)
                ((t.buckets.getD (bucketIndex t.localId r.id) []) ++ [r]) }
        else
          match t.buckets.getD (bucketIndex t.localId r.id) [] with
          | [] =>
              { t with
                buckets := t.buckets.set (bucketIndex t.localId r.id) [r] }
          | oldest :: rest =>
              if ping oldest.id then t
              else
                { t with
                  buckets :=
                    t.buckets.set (bucketIndex t.localId r.id) (rest ++ [r]) }

/-- A whole sequence of `record_seen` calls applied to the initially empty
table; each event carries the observed record and the ping oracle in
effect for that call. -/
def RoutingTable.applyAll (localId : Nat)
    (events : List (PeerRecord × (Nat → Bool))) : RoutingTable :=
  events.foldl (fun t e => record_seen e.2 t e.1) (RoutingTable.empty localId)

/-- All records currently in the table, bucket by bucket. -/
def RoutingTable.records (t : RoutingTable) : List PeerRecord :=
  t.buckets.flatten

/-- The ordering used by `closest` (spec §4.1): smaller XOR distance to the
target first, ties broken by more-recently-seen first. -/
def closerTo (target : Nat) (a b : PeerRecord) : Prop :=
  xorDistance a.id target < xorDistance b.id target ∨
    (xorDistance a.id target = xorDistance b.id target ∧ b.lastSeen ≤ a.lastSeen)

instance (target : Nat) : DecidableRel (closerTo target) := fun a b => by
  unfold closerTo
  infer_instance

/-- Modelled from the spec: `closest(target, n)` (spec §4.1): the n
PeerRecords with smallest XOR distance to the target, ties broken by
more-recently-seen first. -/
def closest (t : RoutingTable) (target n : Nat) : List PeerRecord :=
  (t.records.insertionSort (closerTo target)).take n

/-- Proof-infrastructure predicate: one well-placed bucket — within the K
bound, holding no record of the local identity, and only records whose
XOR-distance prefix selects exactly this bucket. -/
def BucketOK (localId i : Nat) (b : List PeerRecord) : Prop :=
  b.length ≤ K ∧ ∀ r ∈ b, r.id ≠ localId ∧ bucketIndex localId r.id = i

/-- Proof-infrastructure predicate: every bucket of the table is
well-placed. -/
def TableOK (t : RoutingTable) : Prop :=
  ∀ i, BucketOK t.localId i (t.buckets.getD i [])

/-! ## Dissemination Engine and Dedup Cache

The flood-based publish/subscribe engine of spec §4.3 has no code in
`src/` (the config's `topic` field, config.rs lines 14-16, is its only
trace); it is modelled from the specification. -/

/-- Modelled from the spec: a MessageEnvelope (spec §3): message id, origin
identity, topic, payload bytes. -/
structure MessageEnvelope where
  id : Nat
  origin : Nat
  topic : String
  payload : List Nat
  deriving DecidableEq, Repr

/-- Modelled from the spec: the Dedup Cache (spec §3): a bounded mapping
from message id to insertion time with insertion-ordered eviction — the
oldest entries are dropped once the capacity is exceeded.  (The
complementary time-to-live pruning runs on the event loop's timer tick,
spec §4.4, outside the per-message operations modelled here.) -/
structure DedupCache where
  capacity : Nat
  entries : List (Nat × Nat)
  deriving DecidableEq, Repr

/-- Membership test of the Dedup Cache (spec §3). -/
def DedupCache.contains (c : DedupCache) (id : Nat) : Bool :=
  c.entries.any fun e => e.1 == id

/-- Insertion with insertion-ordered eviction: append the id with its
insertion time, then drop the oldest entries down to capacity. -/
def DedupCache.insert (c : DedupCache) (id : Nat) (now : Nat) : DedupCache :=
  ⟨c.capacity,
   (c.entries ++ [(id, now)]).drop ((c.entries ++ [(id, now)]).length - c.capacity)⟩

/-- Modelled from the spec: the Dissemination Engine's state (spec §3/§4.3):
the Dedup Cache, the locally subscribed topics, the currently connected
Sessions (by peer identity), and the log of envelopes surfaced to the
application layer (the delivery callback). -/
structure DissemState where
  cache : DedupCache
  subscriptions : List String
  sessions : List Nat
  delivered : List MessageEnvelope
  deriving DecidableEq, Repr

/-- Modelled from the spec: `publish(topic, payload)` (spec §4.3):
constructs a MessageEnvelope with a fresh sequence-derived id, inserts it
into the Dedup Cache, and forwards it to every currently connected
Session.  Returns the new state, the envelope and the forward targets. -/
def publish (st : DissemState) (origin : Nat) (topic : String)
    (payload : List Nat) (freshId now : Nat) :
    DissemState × MessageEnvelope × List Nat :=
  ({ st with cache := st.cache.insert freshId now },
   ⟨freshId, origin, topic, payload⟩, st.sessions)

/-- Modelled from the spec: `on_inbound_message(session, envelope)` (spec
§4.3): if the envelope's id is already in the Dedup Cache, drop silently;
otherwise insert it, surface the envelope to the application layer when
the local node subscribes to its topic, and — regardless of local
subscription — forward it to every connected Session except the one it
arrived from.  Returns the new state and the forward targets. -/
def on_inbound_message (st : DissemState) (session : Nat)
    (env : MessageEnvelope) (now : Nat) : DissemState × List Nat :=
  if st.cache.contains env.id then (st, [])
  else
    ({ st with
        cache := st.cache.insert env.id now,
        delivered :=
          if env.topic ∈ st.subscriptions then st.delivered ++ [env]
          else st.delivered },
     st.sessions.filter fun s => s != session)

end P2P

namespace P2P

/-! ### Helper lemmas -/

/-- Hex round-trip: decoding the digits of an encoded byte list restores it,
provided every element is a byte. -/
theorem hexDecode_hexEncode (bs : List Nat) (h : ∀ b ∈ bs, b < 256) :
    hexDecode (hexEncode bs) = some bs := by
  induction bs with
  | nil => rfl
  | cons b t ih =>
      have hb : b < 256 := h b (List.mem_cons_self b t)
      have ht : hexDecode (hexEncode t) = some t :=
        ih fun x hx => h x (List.mem_cons_of_mem b hx)
      have henc : hexEncode (b :: t) = b / 16 :: b % 16 :: hexEncode t := by
        simp [hexEncode]
      have hdiv : b / 16 < 16 := by omega
      have hmod : b % 16 < 16 := by omega
      have hval : b / 16 * 16 + b % 16 = b := by omega
      rw [henc]
      simp [hexDecode, hdiv, hmod, ht, hval]

/-- The bootstrap-peer loop, with an arbitrary accumulator: it appends one
dial outcome per peer and one table record per `p2p`-bearing peer. -/
theorem bootstrapPeerLoop_foldl (dial : Multiaddr → Except String Unit)
    (peers : List Multiaddr)
    (acc : List (Multiaddr × Except String Unit) × List (Nat × Multiaddr)) :
    peers.foldl
      (fun acc p =>
        let outcome := dial p
        let table :=
          match p.firstP2p with
          | some id => acc.2 ++ [(id, p)]
          | none => acc.2
        (acc.1 ++ [(p, outcome)], table)) acc
    = (acc.1 ++ peers.map (fun p => (p, dial p)),
       acc.2 ++ addedAddresses peers) := by
  induction peers generalizing acc with
  | nil => simp [addedAddresses]
  | cons p t ih =>
      rw [List.foldl_cons, ih]
      cases hp : p.firstP2p with
      | none => simp [addedAddresses, List.filterMap_cons, hp]
      | some id => simp [addedAddresses, List.filterMap_cons, hp]

/-- Closed form of the bootstrap-peer loop. -/
theorem bootstrapPeerLoop_eq (dial : Multiaddr → Except String Unit)
    (peers : List Multiaddr) :
    bootstrapPeerLoop dial peers =
      (peers.map (fun p => (p, dial p)), addedAddresses peers) := by
  rw [bootstrapPeerLoop, bootstrapPeerLoop_foldl]
  simp

/-- `getD` after `set` at the same in-range index yields the new value. -/
theorem getD_set_self {α : Type} (l : List α) (i : Nat) (a d : α)
    (h : i < l.length) : (l.set i a).getD i d = a := by
  induction l generalizing i with
  | nil => simp at h
  | cons x t ih =>
      cases i with
      | zero => rfl
      | succ n => simpa using ih n (by simpa using h)

/-- `getD` after `set` at a different index is unchanged. -/
theorem getD_set_ne {α : Type} (l : List α) (i j : Nat) (a d : α)
    (h : j ≠ i) : (l.set i a).getD j d = l.getD j d := by
  induction l generalizing i j with
  | nil => rfl
  | cons x t ih =>
      cases i with
      | zero =>
          cases j with
          | zero => exact absurd rfl h
          | succ m => rfl
      | succ n =>
          cases j with
          | zero => rfl
          | succ m => simpa using ih n m (fun hh => h (by rw [hh]))

/-- `set` beyond the end of the list is a no-op. -/
theorem set_of_length_le {α : Type} (l : List α) (i : Nat) (a : α)
    (h : l.length ≤ i) : l.set i a = l := by
  induction l generalizing i with
  | nil => rfl
  | cons x t ih =>
      cases i with
      | zero => simp at h
      | succ n => simpa using ih n (by simpa using h)

/-- `getD` over a replicated list is the replicated element. -/
theorem getD_replicate {α : Type} (n i : Nat) (d : α) :
    (List.replicate n d).getD i d = d := by
  induction n generalizing i with
  | zero => rfl
  | succ m ih =>
      cases i with
      | zero => rfl
      | succ k => simp [ih k]

/-- In-range `getD` is `getElem`. -/
theorem getD_of_lt {α : Type} (l : List α) (i : Nat) (d : α)
    (h : i < l.length) : l.getD i d = l[i] := by
  induction l generalizing i with
  | nil => simp at h
  | cons x t ih =>
      cases i with
      | zero => rfl
      | succ n => simpa using ih n (by simpa using h)

/-- The empty routing table is well-formed. -/
theorem tableOK_empty (localId : Nat) : TableOK (RoutingTable.empty localId) := by
  intro i
  show BucketOK localId i ((List.replicate NUM_BUCKETS []).getD i [])
  rw [getD_replicate]
  exact ⟨by simp [K], by simp⟩

/-- Replacing one bucket by a well-placed bucket preserves table
well-formedness. -/
theorem tableOK_set (t : RoutingTable) (hT : TableOK t) (i : Nat)
    (b : List PeerRecord) (hb : BucketOK t.localId i b) :
    TableOK { t with buckets := t.buckets.set i b } := by
  intro j
  show BucketOK t.localId j ((t.buckets.set i b).getD j [])
  by_cases hj : j = i
  · subst hj
    by_cases hlen : j < t.buckets.length
    · rw [getD_set_self t.buckets j b [] hlen]
      exact hb
    · rw [set_of_length_le t.buckets j b (Nat.le_of_not_lt hlen)]
      exact hT j
  · rw [getD_set_ne t.buckets i j b [] hj]
    exact hT j

/-- `record_seen` preserves table well-formedness. -/
theorem record_seen_preserves_TableOK (ping : Nat → Bool) (t : RoutingTable)
    (r : PeerRecord) (h : TableOK t) : TableOK (record_seen ping t r) := by
  unfold record_seen
  split
  · exact h
  next hid =>
    have hB := h (bucketIndex t.localId r.id)
    split
    next old hfind =>
      have hmem : old ∈ t.buckets.getD (bucketIndex t.localId r.id) [] :=
        List.mem_of_find?_eq_some hfind
      have holdid : old.id = r.id := by
        have := List.find?_some hfind
        simpa using this
      refine tableOK_set t h _ _ ⟨?_, ?_⟩
      · have hlt : ((t.buckets.getD (bucketIndex t.localId r.id) []).filter
            fun x => x.id != r.id).length <
            (t.buckets.getD (bucketIndex t.localId r.id) []).length := by
          rw [List.length_filter_lt_length_iff_exists]
          exact ⟨old, hmem, by simp [holdid]⟩
        have hK := hB.1
        simp only [List.length_append, List.length_cons, List.length_nil]
        omega
      · intro x hx
        rcases List.mem_append.mp hx with hx | hx
        · exact hB.2 x (List.mem_of_mem_filter hx)
        · have hx' : x = ⟨old.id, mergeAddrs old.addrs r.addrs, r.lastSeen⟩ := by
            simpa using hx
          subst hx'
          exact hB.2 old hmem
    next hfind =>
      split
      next hlen =>
        refine tableOK_set t h _ _ ⟨?_, ?_⟩
        · simp only [List.length_append, List.length_cons, List.length_nil]
          omega
        · intro x hx
          rcases List.mem_append.mp hx with hx | hx
          · exact hB.2 x hx
          · have hx' : x = r := by simpa using hx
            subst hx'
            exact ⟨hid, rfl⟩
      next hlen =>
        split
        next hnil =>
          refine tableOK_set t h _ _ ⟨?_, ?_⟩
          · simp [K]
          · intro x hx
            have hx' : x = r := by simpa using hx
            subst hx'
            exact ⟨hid, rfl⟩
        next oldest rest hcons =>
          split
          · exact h
          · refine tableOK_set t h _ _ ⟨?_, ?_⟩
            · have hK := hB.1
              rw [hcons] at hK
              simp only [List.length_append, List.length_cons, List.length_nil]
              simp only [List.length_cons] at hK
              omega
            · intro x hx
              rcases List.mem_append.mp hx with hx | hx
              · refine hB.2 x ?_
                rw [hcons]
                exact List.mem_cons_of_mem oldest hx
              · have hx' : x = r := by simpa using hx
                subst hx'
                exact ⟨hid, rfl⟩

/-- A whole sequence of `record_seen` calls preserves well-formedness. -/
theorem tableOK_applyAll (localId : Nat)
    (events : List (PeerRecord × (Nat → Bool))) :
    TableOK (RoutingTable.applyAll localId events) := by
  unfold RoutingTable.applyAll
  have hgen : ∀ (evs : List (PeerRecord × (Nat → Bool))) (t : RoutingTable),
      TableOK t → TableOK (evs.foldl (fun t e => record_seen e.2 t e.1) t) := by
    intro evs
    induction evs with
    | nil => exact fun t ht => ht
    | cons e tl ih =>
        exact fun t ht => ih _ (record_seen_preserves_TableOK e.2 t e.1 ht)
  exact hgen events _ (tableOK_empty localId)

instance closerTo_total (target : Nat) : IsTotal PeerRecord (closerTo target) := by
  refine ⟨fun a b => ?_⟩
  unfold closerTo
  rcases Nat.lt_trichotomy (xorDistance a.id target) (xorDistance b.id target)
    with h | h | h
  · exact Or.inl (Or.inl h)
  · rcases Nat.le_total b.lastSeen a.lastSeen with hl | hl
    · exact Or.inl (Or.inr ⟨h, hl⟩)
    · exact Or.inr (Or.inr ⟨h.symm, hl⟩)
  · exact Or.inr (Or.inl h)

instance closerTo_trans (target : Nat) : IsTrans PeerRecord (closerTo target) := by
  refine ⟨fun a b c hab hbc => ?_⟩
  unfold closerTo at *
  omega

/-! ### Claim theorems -/

/-- C9: `Config::from_file` is total over malformed bootstrap entries: when
the file is present and its YAML parses to a document whose
`bootstrap_peers` field is a list of strings, the result is `Ok` and its
`bootstrap_peers` are exactly the entries the multiaddress parser accepts,
in order; and for an absent path the result is `Ok` with the default
configuration. -/
theorem from_file_total_over_malformed_entries
    (parseYaml : String → Option ConfigYaml)
    (parse : String → Option Multiaddr)
    (content : String) (entries : List String) (topic : Option String)
    (hYaml : parseYaml content = some ⟨some entries, topic⟩) :
    Config.from_file parseYaml parse (.present content) =
      .ok { bootstrap_peers := entries.filterMap parse,
            topic := topic.getD default_topic } ∧
    Config.from_file parseYaml parse .absent = .ok Config.default := by
  refine ⟨?_, rfl⟩
  simp [Config.from_file, hYaml, Config.fromYaml]

/-- Witness for C9: a concrete YAML document with one well-formed and one
malformed bootstrap entry; only the well-formed entry survives, and the
absent path yields the defaults. -/
theorem from_file_total_over_malformed_entries_witness :
    (fun s => if s = "cfg" then some (⟨some ["good", "bad"], none⟩ : ConfigYaml) else none) "cfg"
      = some ⟨some ["good", "bad"], none⟩ ∧
    Config.from_file
      (fun s => if s = "cfg" then some ⟨some ["good", "bad"], none⟩ else none)
      (fun s => if s = "good" then some ⟨[.p2p 9]⟩ else none)
      (.present "cfg") =
      .ok { bootstrap_peers := [⟨[.p2p 9]⟩], topic := default_topic } ∧
    Config.from_file
      (fun s => if s = "cfg" then some ⟨some ["good", "bad"], none⟩ else none)
      (fun s => if s = "good" then some ⟨[.p2p 9]⟩ else none)
      .absent = .ok Config.default := by
  have h := from_file_total_over_malformed_entries
    (fun s => if s = "cfg" then some ⟨some ["good", "bad"], none⟩ else none)
    (fun s => if s = "good" then some ⟨[.p2p 9]⟩ else none)
    "cfg" ["good", "bad"] none (by decide)
  exact ⟨by decide, by simpa using h.1, h.2⟩

/-- C10: the QUIC listening port is the CLI port plus one; for every CLI port
below the maximum 16-bit value 65535 the derived port still fits the 16-bit
port range, and at exactly 65535 the sum 65536 exceeds it — the derivation
is well-defined only under the precondition `p < 65535`. -/
theorem quicListenPort_overflow_bound (p : Nat) (h : p < 65535) :
    quicListenPort p = p + 1 ∧ quicListenPort p ≤ 65535 ∧
    ¬ quicListenPort 65535 ≤ 65535 := by
  refine ⟨rfl, ?_, by decide⟩
  simp only [quicListenPort]
  omega

/-- Witness for C10 at the default CLI port 30333 (main.rs line 32). -/
theorem quicListenPort_overflow_bound_witness :
    30333 < 65535 ∧
    (quicListenPort 30333 = 30333 + 1 ∧ quicListenPort 30333 ≤ 65535 ∧
      ¬ quicListenPort 65535 ≤ 65535) :=
  ⟨by decide, quicListenPort_overflow_bound 30333 (by decide)⟩

/-- C4: the identity write-then-read round-trip fails.  For every fresh
ed25519 keypair (32 secret and 32 public bytes), the first call on an
absent identity file returns `Ok` with the fresh keypair and writes the
hex-encoded protobuf encoding — 68 bytes of payload — but the second call
hex-decodes those 68 bytes and hands them to `ed25519_from_bytes`, which
demands exactly the 32 raw secret-key bytes, so it returns an error
instead of the keypair: the writer (`to_protobuf_encoding`, main.rs line
48) and the reader (`ed25519_from_bytes`, main.rs line 42) use mismatched
encodings. -/
theorem identity_write_then_read_fails (derive : List Nat → List Nat)
    (fresh : Ed25519Keypair)
    (hs : fresh.secret.length = 32) (hp : fresh.public.length = 32)
    (hbs : ∀ b ∈ fresh.secret, b < 256) (hbp : ∀ b ∈ fresh.public, b < 256) :
    (load_or_create_identity derive fresh none).1 = .ok fresh ∧
    (load_or_create_identity derive fresh
        (load_or_create_identity derive fresh none).2).1 =
      .error "Failed to parse identity keypair from bytes" := by
  refine ⟨rfl, ?_⟩
  have hall : ∀ b ∈ to_protobuf_encoding fresh, b < 256 := by
    intro b hb
    rw [to_protobuf_encoding, List.mem_append, List.mem_append] at hb
    rcases hb with (hb | hb) | hb
    · have : b = 8 ∨ b = 1 ∨ b = 18 ∨ b = 64 := by simpa using hb
      omega
    · exact hbs b hb
    · exact hbp b hb
  have hdec : hexDecode (hexEncode (to_protobuf_encoding fresh)) =
      some (to_protobuf_encoding fresh) := hexDecode_hexEncode _ hall
  have hlen : (to_protobuf_encoding fresh).length = 68 := by
    simp [to_protobuf_encoding, hs, hp]
  simp [load_or_create_identity, hdec, ed25519_from_bytes, hlen]

/-- Witness for C4 at a concrete fresh keypair (all-zero secret, all-one
public key): the first call succeeds, the re-read fails. -/
theorem identity_write_then_read_fails_witness :
    (load_or_create_identity (fun _ => List.replicate 32 1)
        ⟨List.replicate 32 0, List.replicate 32 1⟩ none).1 =
      .ok ⟨List.replicate 32 0, List.replicate 32 1⟩ ∧
    (load_or_create_identity (fun _ => List.replicate 32 1)
        ⟨List.replicate 32 0, List.replicate 32 1⟩
        (load_or_create_identity (fun _ => List.replicate 32 1)
          ⟨List.replicate 32 0, List.replicate 32 1⟩ none).2).1 =
      .error "Failed to parse identity keypair from bytes" :=
  identity_write_then_read_fails (fun _ => List.replicate 32 1)
    ⟨List.replicate 32 0, List.replicate 32 1⟩
    (by decide) (by decide) (by decide) (by decide)

/-- C3 counterexample: a non-empty seed list whose single address carries no
`p2p` component (e.g. `/ip4/…/tcp/…` without a peer hash).  The address
is dialed but never seeded into the routing table (`add_address` is only
reached behind the `find_map(P2p)` guard, main.rs lines 137-145), so the
table stays empty and the subsequent `bootstrap()` self-lookup is not
issued — it fails with `NoKnownPeers`.  This refutes "seeds the Routing
Table with every given seed address … for every non-empty list". -/
theorem bootstrap_seeds_every_address_counterexample :
    ([⟨[.other 1 0]⟩] : List Multiaddr) ≠ [] ∧
    (bootstrapPeerLoop (fun _ => .ok ()) [⟨[.other 1 0]⟩]).2 = [] ∧
    dhtStartup (fun _ => .ok ()) 7 [⟨[.other 1 0]⟩] = .error "NoKnownPeers" :=
  ⟨by decide, rfl, rfl⟩

/-- C3 amended: `bootstrap` seeds the Routing Table with exactly those seed
addresses that carry a `p2p` peer-id component (in order), and then issues
the single self-lookup for the local identity provided at least one seed
address carried a peer id; with no such address the self-lookup fails with
`NoKnownPeers` instead. -/
theorem bootstrap_seeds_p2p_addresses_then_self_lookup
    (dial : Multiaddr → Except String Unit) (localId : Nat)
    (peers : List Multiaddr) (h : addedAddresses peers ≠ []) :
    (bootstrapPeerLoop dial peers).2 = addedAddresses peers ∧
    dhtStartup dial localId peers =
      .ok ((bootstrapPeerLoop dial peers).1, addedAddresses peers, localId) := by
  have hb := bootstrapPeerLoop_eq dial peers
  refine ⟨by rw [hb], ?_⟩
  have hne : (addedAddresses peers).isEmpty = false := by
    simpa [List.isEmpty_iff] using h
  simp [dhtStartup, kadBootstrap, hb, hne]

/-- Witness for C3 at a one-element seed list whose address carries the
peer id 5: the table is seeded with it and the self-lookup targets the
local identity 7. -/
theorem bootstrap_seeds_p2p_addresses_witness :
    addedAddresses [⟨[.other 2 4001, .p2p 5]⟩] ≠ [] ∧
    ((bootstrapPeerLoop (fun _ => .error "unreachable")
        [⟨[.other 2 4001, .p2p 5]⟩]).2 =
      addedAddresses [⟨[.other 2 4001, .p2p 5]⟩] ∧
     dhtStartup (fun _ => .error "unreachable") 7 [⟨[.other 2 4001, .p2p 5]⟩] =
      .ok ((bootstrapPeerLoop (fun _ => .error "unreachable")
              [⟨[.other 2 4001, .p2p 5]⟩]).1,
           addedAddresses [⟨[.other 2 4001, .p2p 5]⟩], 7)) :=
  ⟨by decide,
   bootstrap_seeds_p2p_addresses_then_self_lookup
     (fun _ => .error "unreachable") 7 [⟨[.other 2 4001, .p2p 5]⟩] (by decide)⟩

/-- C2 counterexample: with a non-empty bootstrap list whose addresses carry
no peer id, the routing table is empty at `bootstrap()` time; the `?` on
main.rs line 149 propagates the `NoKnownPeers` error out of `main` and the
process exits — the event loop on line 153 is never entered.  This refutes
"no error condition in the core is process-fatal / the node's event loop
keeps running". -/
theorem discovery_exhausted_nonfatal_counterexample :
    mainStartup (fun _ => .ok ()) 7 [⟨[.other 1 0]⟩] =
      .error "NoKnownPeers" := rfl

/-- C2 amended: discovery exhaustion at startup is process-fatal: whenever
no configured bootstrap address carries a `p2p` peer id, the kad bootstrap
fails with `NoKnownPeers` and the `?` on main.rs line 149 propagates the
error out of `main`, so the process aborts before the event loop starts
(dial failures, by contrast, are logged and do not abort, main.rs lines
130-134). -/
theorem discovery_exhausted_fatal_at_startup
    (dial : Multiaddr → Except String Unit) (localId : Nat)
    (peers : List Multiaddr) (h : addedAddresses peers = []) :
    mainStartup dial localId peers = .error "NoKnownPeers" := by
  simp [mainStartup, dhtStartup, kadBootstrap, bootstrapPeerLoop_eq, h]

/-- Witness for C2's amended statement with an empty bootstrap list. -/
theorem discovery_exhausted_fatal_witness :
    addedAddresses [] = [] ∧
    mainStartup (fun _ => .ok ()) 0 [] = .error "NoKnownPeers" :=
  ⟨rfl, discovery_exhausted_fatal_at_startup (fun _ => .ok ()) 0 [] rfl⟩

/-- C6: a dial failure is never fatal.  The bootstrap loop dials every
configured peer and records each peer's own outcome — failed dials do not
stop the loop from processing the remaining peers; the routing-table
seeding is unaffected by dial outcomes; the startup result (whether the
event loop is reached) does not depend on the dial oracle at all; and in
the §4.4 connection state machine a dial failure returns the peer to
`Idle`, eligible for retry. -/
theorem dial_failure_never_fatal (dial : Multiaddr → Except String Unit)
    (localId : Nat) (peers : List Multiaddr) :
    (bootstrapPeerLoop dial peers).1 = peers.map (fun p => (p, dial p)) ∧
    (bootstrapPeerLoop dial peers).2 = addedAddresses peers ∧
    mainStartup dial localId peers =
      mainStartup (fun _ => .ok ()) localId peers ∧
    connStep .dialing .dialFailure = .idle := by
  refine ⟨by simp [bootstrapPeerLoop_eq], by simp [bootstrapPeerLoop_eq],
    ?_, rfl⟩
  cases hk : kadBootstrap localId (addedAddresses peers) with
  | error e => simp [mainStartup, dhtStartup, bootstrapPeerLoop_eq, hk]
  | ok t => simp [mainStartup, dhtStartup, bootstrapPeerLoop_eq, hk]

/-- C5: for every sequence of `record_seen` calls applied to the initially
empty Routing Table (each call with its own observed record and ping
oracle), no bucket ever holds more than K records, and no peer identity is
present in two buckets at the same time (any two distinct buckets hold
records with disjoint identities). -/
theorem record_seen_bucket_invariants (localId : Nat)
    (events : List (PeerRecord × (Nat → Bool))) :
    (∀ b ∈ (RoutingTable.applyAll localId events).buckets, b.length ≤ K) ∧
    (RoutingTable.applyAll localId events).buckets.Pairwise
      (fun b₁ b₂ => ∀ r₁ ∈ b₁, ∀ r₂ ∈ b₂, r₁.id ≠ r₂.id) := by
  have hOK : TableOK (RoutingTable.applyAll localId events) :=
    tableOK_applyAll localId events
  constructor
  · intro b hb
    rcases List.mem_iff_getElem.mp hb with ⟨i, hi, hgi⟩
    have := (hOK i).1
    rw [getD_of_lt _ i [] hi, hgi] at this
    exact this
  · rw [List.pairwise_iff_getElem]
    intro i j hi hj hij r₁ h₁ r₂ h₂ heq
    have hp₁ : bucketIndex (RoutingTable.applyAll localId events).localId r₁.id = i := by
      refine ((hOK i).2 r₁ ?_).2
      rw [getD_of_lt _ i [] hi]
      exact h₁
    have hp₂ : bucketIndex (RoutingTable.applyAll localId events).localId r₂.id = j := by
      refine ((hOK j).2 r₂ ?_).2
      rw [getD_of_lt _ j [] hj]
      exact h₂
    rw [heq, hp₂] at hp₁
    omega

/-- C7: for every routing table, target identity and count n,
`closest(target, n)` returns a list sorted by the `closerTo target`
ordering: non-decreasing XOR distance to the target, ties broken by
more-recently-seen (larger last-seen timestamp) first. -/
theorem closest_sorted_by_distance (t : RoutingTable) (target n : Nat) :
    (closest t target n).Pairwise (closerTo target) := by
  have hs : (t.records.insertionSort (closerTo target)).Pairwise (closerTo target) :=
    List.sorted_insertionSort (closerTo target) t.records
  exact List.Pairwise.sublist (List.take_sublist n _) hs

/-- C8: an inbound envelope whose id is not yet in the Dedup Cache is
forwarded to every currently connected Session except the one it arrived
from — for every dissemination state, in particular whatever the local
subscription set is. -/
theorem on_inbound_forwards_to_all_but_sender (st : DissemState)
    (session : Nat) (env : MessageEnvelope) (now : Nat)
    (h : st.cache.contains env.id = false) :
    (on_inbound_message st session env now).2 =
      st.sessions.filter fun s => s != session := by
  simp [on_inbound_message, h]

/-- Witness for C8: a node not subscribed to the envelope's topic, with
Sessions 1, 2, 3, receiving a fresh envelope from Session 2, forwards to
Sessions 1 and 3. -/
theorem on_inbound_forwards_witness :
    (DissemState.mk ⟨4, []⟩ [] [1, 2, 3] []).cache.contains 7 = false ∧
    (on_inbound_message ⟨⟨4, []⟩, [], [1, 2, 3], []⟩ 2 ⟨7, 0, "t", []⟩ 3).2 =
      [1, 2, 3].filter fun s => s != 2 :=
  ⟨by decide,
   on_inbound_forwards_to_all_but_sender ⟨⟨4, []⟩, [], [1, 2, 3], []⟩ 2
     ⟨7, 0, "t", []⟩ 3 (by decide)⟩

/-- C1 counterexample: the Dedup Cache is bounded with insertion-ordered
eviction, so "every later call with the same id is dropped" fails once the
id has been evicted.  Concretely, with capacity 1 and local subscription
to topic "t": the envelope with id 0 arrives (delivered, id 0 cached), an
envelope with id 9 arrives (evicting id 0), then the id-0 envelope arrives
again — it is no longer in the cache and is delivered a second time, even
though its id had been inserted by the first receipt. -/
theorem deliver_once_counterexample :
    (on_inbound_message ⟨⟨1, []⟩, ["t"], [1, 2], []⟩ 1
        ⟨0, 5, "t", []⟩ 0).1.cache.contains 0 = true ∧
    ((on_inbound_message
        (on_inbound_message
          (on_inbound_message ⟨⟨1, []⟩, ["t"], [1, 2], []⟩ 1
            ⟨0, 5, "t", []⟩ 0).1
          1 ⟨9, 5, "t", []⟩ 1).1
        2 ⟨0, 5, "t", []⟩ 2).1.delivered.filter
      (fun e => e.id == 0)).length = 2 := by
  exact ⟨by decide, by decide⟩

/-- C1 amended: the delivery callback fires at most once per id while the
id remains in the Dedup Cache: every call to `on_inbound_message` carrying
an id currently in the cache is dropped silently — the state (and with it
the application-visible delivery log) is unchanged and nothing is
forwarded.  (An id evicted from the bounded cache is treated as new and
may be re-delivered, per the eviction property of spec §8.) -/
theorem deliver_once_while_cached (st : DissemState) (session : Nat)
    (env : MessageEnvelope) (now : Nat)
    (h : st.cache.contains env.id = true) :
    on_inbound_message st session env now = (st, []) := by
  simp [on_inbound_message, h]

/-- Witness for C1's amended statement: an envelope whose id 3 is cached is
dropped silently. -/
theorem deliver_once_while_cached_witness :
    (DissemState.mk ⟨8, [(3, 0)]⟩ ["t"] [1, 2] []).cache.contains 3 = true ∧
    on_inbound_message ⟨⟨8, [(3, 0)]⟩, ["t"], [1, 2], []⟩ 1 ⟨3, 5, "t", []⟩ 4 =
      (⟨⟨8, [(3, 0)]⟩, ["t"], [1, 2], []⟩, []) :=
  ⟨by decide,
   deliver_once_while_cached ⟨⟨8, [(3, 0)]⟩, ["t"], [1, 2], []⟩ 1
     ⟨3, 5, "t", []⟩ 4 (by decide)⟩

end P2P
